import Mathlib

/-!
Verification of the validated-configuration schema of the Python-Mastery
repository (`src/foundations/01_type_system/`): the pydantic models
`ReadConfig`, `WriteConfig`, `TransformStep`, `TransformConfig`,
`NodeConfig`, `CompleteNodeConfig`, `RetryConfig` from
`odibi_snippets.py` and `lesson.py`, and the (TODO-stubbed)
`PipelineConfig` cross-record checks from `exercises.py`, modelled from
the spec.

Python strings are embedded as `List Char`; the character-level
functions (`strip`, `lower`, `isalnum`) are modelled for ASCII
characters, where they agree with CPython; theorems about name
validation therefore carry an ASCII hypothesis.  Python `None` and
optional string fields become `Option`, and Python truthiness of an
optional string (`not self.x`) becomes the `truthy` function below.
A `raise ValueError(...)` site becomes an `Except.error` with a
dedicated constructor of `ConfigError`; each constructor is named after
the message of its raise site.
-/

deriving instance DecidableEq for Except

namespace PythonMastery

/-- A Python string, embedded as its list of characters. -/
abbrev PyStr := List Char

/-- A value of Python type `Any`: opaquely carried, never inspected by any
validator in the source. -/
inductive PyAny : Type
  | any : PyAny
deriving DecidableEq

/-- A Python `Dict[str, Any]`, as an association list; no validator in the
source inspects dictionary contents. -/
abbrev PyDict := List (PyStr × PyAny)

/-- Whitespace characters stripped by CPython `str.strip()` (ASCII range). -/
def pyIsSpace (c : Char) : Bool :=
  c = ' ' ∨ c = '\t' ∨ c = '\n' ∨ c = '\r' ∨ c = '\x0b' ∨ c = '\x0c'

/-- CPython `str.strip()`: remove leading and trailing whitespace. -/
def pyStrip (s : PyStr) : PyStr :=
  ((s.dropWhile pyIsSpace).reverse.dropWhile pyIsSpace).reverse

/-- CPython `str.lower()` on one ASCII character: map `A`-`Z` to `a`-`z`,
leave everything else unchanged. -/
def pyLowerChar (c : Char) : Char :=
  if 'A' ≤ c ∧ c ≤ 'Z' then Char.ofNat (c.toNat + 32) else c

/-- CPython `str.lower()` (ASCII model). -/
def pyLower (s : PyStr) : PyStr := s.map pyLowerChar

/-- CPython `str.isalnum()` on one character (ASCII model): a letter or a
digit. -/
def pyIsAlnum (c : Char) : Bool :=
  ('a' ≤ c ∧ c ≤ 'z') ∨ ('A' ≤ c ∧ c ≤ 'Z') ∨ ('0' ≤ c ∧ c ≤ '9')

/-- CPython `str.isalnum()`: non-empty and every character alphanumeric. -/
def pyStrIsAlnum (s : PyStr) : Bool := !s.isEmpty && s.all pyIsAlnum

/-- CPython `v.replace("_", "")`: drop every underscore. -/
def pyRemoveUnderscores (s : PyStr) : PyStr := s.filter (fun c => c ≠ '_')

/-- Python truthiness of an optional string field: `None` and the empty
string are falsy, every other string is truthy. -/
def truthy : Option PyStr → Bool
  | none => false
  | some s => !s.isEmpty

/-- One constructor per `raise ValueError(...)` site of the embedded
validators, named after the message raised there. -/
inductive ConfigError : Type
  /-- odibi_snippets `ReadConfig`: Either table or path must be provided
  for read config. -/
  | readNeedsTableOrPath
  /-- odibi_snippets `WriteConfig`: Either table or path must be provided
  for write config. -/
  | writeNeedsTableOrPath
  /-- odibi_snippets `TransformStep`: Exactly one of sql, function, or
  operation must be provided. -/
  | stepNeedsExactlyOneType
  /-- odibi_snippets `NodeConfig` / lesson `CompleteNodeConfig`: Node must
  have at least one of read, transform, write. -/
  | nodeNeedsOperation (name : PyStr)
  /-- odibi_snippets `RetryConfig.max_attempts`: out of the range 1..10. -/
  | maxAttemptsOutOfRange
  /-- odibi_snippets `RetryConfig.backoff`: fails the pattern
  exponential-or-linear-or-constant. -/
  | backoffPatternMismatch
  /-- lesson `WriteConfig`: Either path or table must be provided. -/
  | lessonWriteNeedsPathOrTable
  /-- lesson `WriteConfig`: Cannot specify both path and table. -/
  | lessonWriteBothPathAndTable
  /-- lesson `TransformStep`: Must provide either sql or function. -/
  | lessonStepNeedsSqlOrFunction
  /-- lesson `TransformStep`: Cannot provide both sql and function. -/
  | lessonStepBothSqlAndFunction
  /-- lesson TransformConfig: Transform must have at least one step. -/
  | transformNeedsStep
  /-- lesson `NodeConfig.validate_name`: Node name cannot be empty. -/
  | nodeNameEmpty
  /-- lesson node name validators: name must be alphanumeric with
  underscores. -/
  | nodeNameNotAlnum
  /-- lesson `NodeConfig.validate_dependencies`: Duplicate dependencies
  not allowed. -/
  | duplicateDependencies
deriving DecidableEq

namespace Odibi

/-!
Models from `src/foundations/01_type_system/odibi_snippets.py`.
-/

/-- odibi_snippets.py `WriteMode` enum. -/
inductive WriteMode : Type
  | overwrite
  | append
deriving DecidableEq

/-- odibi_snippets.py `ReadConfig` fields. -/
structure ReadConfig : Type where
  connection : PyStr
  format : PyStr
  table : Option PyStr
  path : Option PyStr
  options : PyDict
deriving DecidableEq

/-- Construction of odibi_snippets `ReadConfig`: pydantic builds the record,
then the model validator `check_table_or_path` raises when
`not self.table and not self.path`. -/
def ReadConfig.validate (connection format : PyStr) (table path : Option PyStr)
    (options : PyDict) : Except ConfigError ReadConfig :=
  if !truthy table && !truthy path then .error .readNeedsTableOrPath
  else .ok ⟨connection, format, table, path, options⟩

/-- odibi_snippets.py `TransformStep` fields. -/
structure TransformStep : Type where
  sql : Option PyStr
  function : Option PyStr
  operation : Option PyStr
  params : PyDict
deriving DecidableEq

/-- Construction of odibi_snippets `TransformStep`: the model validator
`check_step_type` raises when `sum(x is not None for x in step_types) != 1`
over `[sql, function, operation]`; note the `is not None` test, which is
not truthiness. -/
def TransformStep.validate (sql function operation : Option PyStr)
    (params : PyDict) : Except ConfigError TransformStep :=
  if ([sql, function, operation].countP Option.isSome) ≠ 1 then
    .error .stepNeedsExactlyOneType
  else .ok ⟨sql, function, operation, params⟩

/-- odibi_snippets.py `ValidationConfig` fields (no validators). -/
structure ValidationConfig : Type where
  schema_validation : Option PyDict
  not_empty : Bool
  no_nulls : List PyStr
deriving DecidableEq

/-- odibi_snippets.py `WriteConfig` fields. -/
structure WriteConfig : Type where
  connection : PyStr
  format : PyStr
  table : Option PyStr
  path : Option PyStr
  mode : WriteMode
  options : PyDict
deriving DecidableEq

/-- Construction of odibi_snippets `WriteConfig`: the model validator
`check_table_or_path` raises when `not self.table and not self.path`. -/
def WriteConfig.validate (connection format : PyStr) (table path : Option PyStr)
    (mode : WriteMode) (options : PyDict) : Except ConfigError WriteConfig :=
  if !truthy table && !truthy path then .error .writeNeedsTableOrPath
  else .ok ⟨connection, format, table, path, mode, options⟩

/-- odibi_snippets.py `RetryConfig` fields. -/
structure RetryConfig : Type where
  enabled : Bool
  max_attempts : Int
  backoff : PyStr
deriving DecidableEq

/-- Construction of odibi_snippets `RetryConfig`: `max_attempts` carries
`Field(ge=1, le=10)` and `backoff` the pattern
`^(exponential|linear|constant)$`. -/
def RetryConfig.validate (enabled : Bool) (max_attempts : Int)
    (backoff : PyStr) : Except ConfigError RetryConfig :=
  if ¬(1 ≤ max_attempts ∧ max_attempts ≤ 10) then .error .maxAttemptsOutOfRange
  else if backoff ≠ "exponential".data ∧ backoff ≠ "linear".data ∧
      backoff ≠ "constant".data then .error .backoffPatternMismatch
  else .ok ⟨enabled, max_attempts, backoff⟩

end Odibi

namespace Lesson

/-!
Models from `src/foundations/01_type_system/lesson.py`.
-/

/-- lesson.py `NodeConfig` fields (`name`, `depends_on`, `timeout`). -/
structure NodeConfig : Type where
  name : PyStr
  depends_on : List PyStr
  timeout : Option Int
deriving DecidableEq

/-- lesson.py `NodeConfig.validate_name`: strip, reject the empty result,
reject when the name with underscores removed is not `isalnum`, and return
the lowercased name. -/
def NodeConfig.validate_name (v : PyStr) : Except ConfigError PyStr :=
  let v := pyStrip v
  if v.isEmpty then .error .nodeNameEmpty
  else if !pyStrIsAlnum (pyRemoveUnderscores v) then
    .error .nodeNameNotAlnum
  else .ok (pyLower v)

/-- lesson.py `NodeConfig.validate_dependencies`: raise when
`len(v) != len(set(v))`, i.e. when the list has a duplicate entry. -/
def NodeConfig.validate_dependencies (v : List PyStr) :
    Except ConfigError (List PyStr) :=
  if v.length ≠ v.dedup.length then .error .duplicateDependencies
  else .ok v

/-- Construction of lesson `NodeConfig`: pydantic runs the field validators
for `name` and `depends_on` in field order; `timeout` has no validator. -/
def NodeConfig.validate (name : PyStr) (depends_on : List PyStr)
    (timeout : Option Int) : Except ConfigError NodeConfig := do
  let n ← NodeConfig.validate_name name
  let d ← NodeConfig.validate_dependencies depends_on
  .ok ⟨n, d, timeout⟩

/-- lesson.py `WriteMode` enum. -/
inductive WriteMode : Type
  | overwrite
  | append
deriving DecidableEq

/-- lesson.py `WriteConfig` fields. -/
structure WriteConfig : Type where
  connection : PyStr
  path : Option PyStr
  table : Option PyStr
  mode : WriteMode
deriving DecidableEq

/-- Construction of lesson `WriteConfig`: the model validator
`check_path_or_table` raises when neither `path` nor `table` is truthy,
and also when both are truthy. -/
def WriteConfig.validate (connection : PyStr) (path table : Option PyStr)
    (mode : WriteMode) : Except ConfigError WriteConfig :=
  if !truthy path && !truthy table then .error .lessonWriteNeedsPathOrTable
  else if truthy path && truthy table then .error .lessonWriteBothPathAndTable
  else .ok ⟨connection, path, table, mode⟩

/-- lesson.py `ReadConfig` fields: here `path` is a required plain string
and there is no validator. -/
structure ReadConfig : Type where
  connection : PyStr
  format : PyStr
  path : PyStr
  options : PyDict
deriving DecidableEq

/-- lesson.py `TransformStep` fields: only `sql` and `function`, no
`operation`. -/
structure TransformStep : Type where
  sql : Option PyStr
  function : Option PyStr
  params : PyDict
deriving DecidableEq

/-- Construction of lesson `TransformStep`: the model validator
`check_exactly_one` raises when neither `sql` nor `function` is truthy and
when both are truthy. -/
def TransformStep.validate (sql function : Option PyStr) (params : PyDict) :
    Except ConfigError TransformStep :=
  if !truthy sql && !truthy function then .error .lessonStepNeedsSqlOrFunction
  else if truthy sql && truthy function then
    .error .lessonStepBothSqlAndFunction
  else .ok ⟨sql, function, params⟩

/-- lesson.py `TransformConfig` fields. -/
structure TransformConfig : Type where
  steps : List TransformStep
deriving DecidableEq

/-- Construction of lesson `TransformConfig`: the field validator
`validate_non_empty` raises on an empty step list. -/
def TransformConfig.validate (steps : List TransformStep) :
    Except ConfigError TransformConfig :=
  if steps.isEmpty then .error .transformNeedsStep
  else .ok ⟨steps⟩

/-- lesson.py `CompleteNodeConfig` fields. -/
structure CompleteNodeConfig : Type where
  name : PyStr
  description : Option PyStr
  depends_on : List PyStr
  read : Option ReadConfig
  transform : Option TransformConfig
  write : Option WriteConfig
deriving DecidableEq

/-- lesson.py `CompleteNodeConfig.validate_name`: strip and lowercase
first, then reject when the name with underscores removed is not
`isalnum`. -/
def CompleteNodeConfig.validate_name (v : PyStr) : Except ConfigError PyStr :=
  let v := pyLower (pyStrip v)
  if !pyStrIsAlnum (pyRemoveUnderscores v) then
    .error .nodeNameNotAlnum
  else .ok v

/-- Construction of lesson `CompleteNodeConfig`: the `name` field validator
runs first, then the model validator `check_has_operation` raises when
none of `read`, `transform`, `write` is present (`not any([...])`; `None`
is falsy and a constructed model is truthy). -/
def CompleteNodeConfig.validate (name : PyStr) (description : Option PyStr)
    (depends_on : List PyStr) (read : Option ReadConfig)
    (transform : Option TransformConfig) (write : Option WriteConfig) :
    Except ConfigError CompleteNodeConfig := do
  let n ← CompleteNodeConfig.validate_name name
  if read.isNone && transform.isNone && write.isNone then
    .error (.nodeNeedsOperation n)
  else .ok ⟨n, description, depends_on, read, transform, write⟩

end Lesson

namespace Odibi

/-- odibi_snippets.py `NodeConfig` fields.  The `transform` field is
annotated `Optional[TransformConfig]` in the source; `TransformConfig` is
not defined in odibi_snippets.py itself, so the lesson.py definition is
used here. -/
structure NodeConfig : Type where
  name : PyStr
  description : Option PyStr
  depends_on : List PyStr
  read : Option ReadConfig
  transform : Option Lesson.TransformConfig
  write : Option WriteConfig
  cache : Bool
  validation : Option ValidationConfig
deriving DecidableEq

/-- Construction of odibi_snippets `NodeConfig`: the model validator
`check_at_least_one_operation` raises when
`not any([self.read, self.transform, self.write])`; the `name` and
`depends_on` fields have no validators in this file. -/
def NodeConfig.validate (name : PyStr) (description : Option PyStr)
    (depends_on : List PyStr) (read : Option ReadConfig)
    (transform : Option Lesson.TransformConfig) (write : Option WriteConfig)
    (cache : Bool) (validation : Option ValidationConfig) :
    Except ConfigError NodeConfig :=
  if read.isNone && transform.isNone && write.isNone then
    .error (.nodeNeedsOperation name)
  else .ok ⟨name, description, depends_on, read, transform, write, cache,
    validation⟩

end Odibi

namespace PipelineSpec

/-!
Models of the cross-record pass of `PipelineConfig` construction.  The
class `PipelineConfig` in `src/foundations/01_type_system/exercises.py`
(lines 142-157) is an empty TODO stub, so the checks below are modelled
from the spec.  Job names are taken to be already-normalized strings.
-/

/-- Modelled from the spec: a job as the dependency checks see it — its
name and its `depends_on` list (`exercises.py` `JobConfig` /
`PipelineConfig.jobs` are TODO stubs). -/
structure Job : Type where
  name : String
  depends_on : List String
deriving DecidableEq

/-- Modelled from the spec: the cross-record error taxonomy
(`DuplicateNameViolation`, `DanglingReferenceViolation`,
`CycleViolation`); the `CycleViolation` message names the offending
nodes. -/
inductive Violation : Type
  | duplicateNameViolation
  | danglingReferenceViolation (job dep : String)
  | cycleViolation (names : List String)
deriving DecidableEq

/-- The declared job names of a pipeline, in order. -/
def declaredNames (jobs : List Job) : List String := jobs.map Job.name

/-- Modelled from the spec: the uniqueness-of-job-names check of the
cross-record pass (`PipelineConfig` is a TODO stub).  A repeated name is
a `DuplicateNameViolation`. -/
def checkUniqueNames (jobs : List Job) : Except Violation Unit :=
  if (declaredNames jobs).dedup.length = (declaredNames jobs).length then
    .ok ()
  else .error .duplicateNameViolation

/-- First job together with one of its `depends_on` entries that is not in
`declared`, scanning in order. -/
def findDangling (declared : List String) : List Job → Option (String × String)
  | [] => none
  | j :: rest =>
    match j.depends_on.find? (fun d => !declared.contains d) with
    | some d => some (j.name, d)
    | none => findDangling declared rest

/-- Modelled from the spec: the referential-integrity check of the
cross-record pass (`PipelineConfig` is a TODO stub).  A `depends_on`
entry naming an undeclared job is a `DanglingReferenceViolation`,
reported separately from cycle detection. -/
def checkDanglingRefs (jobs : List Job) : Except Violation Unit :=
  match findDangling (declaredNames jobs) jobs with
  | some (jn, d) => .error (.danglingReferenceViolation jn d)
  | none => .ok ()

/-- One elimination round of the topological check: add to `removed` every
job whose dependencies are all already removed. -/
def removeRound (jobs : List Job) (removed : List String) : List String :=
  removed ++ (jobs.filter (fun j =>
    !removed.contains j.name &&
      j.depends_on.all (fun d => removed.contains d))).map Job.name

/-- The names removed after `k` elimination rounds, starting from none. -/
def removedAfter (jobs : List Job) : Nat → List String
  | 0 => []
  | k + 1 => removeRound jobs (removedAfter jobs k)

/-- The declared names that survive `jobs.length` elimination rounds:
exactly the jobs that cannot be topologically ordered. -/
def unsortedJobs (jobs : List Job) : List String :=
  (declaredNames jobs).filter
    (fun n => !(removedAfter jobs jobs.length).contains n)

/-- Modelled from the spec: the acyclicity check of the cross-record pass
(`PipelineConfig` is a TODO stub).  If some jobs cannot be topologically
ordered the check fails with a `CycleViolation` naming them. -/
def checkAcyclic (jobs : List Job) : Except Violation Unit :=
  if unsortedJobs jobs = [] then .ok ()
  else .error (.cycleViolation (unsortedJobs jobs))

/-- Modelled from the spec: the cross-record pass of `PipelineConfig`
construction (`PipelineConfig` in exercises.py is a TODO stub), in the
order the spec gives: uniqueness of job names, then referential
integrity of `depends_on`, then acyclicity. -/
def checkPipelineDeps (jobs : List Job) : Except Violation Unit := do
  checkUniqueNames jobs
  checkDanglingRefs jobs
  checkAcyclic jobs

/-- Modelled from the spec: the numeric field constraints of
`PipelineConfig` (a TODO stub in exercises.py): `max_parallel` must be
at least 1 and `retry_attempts` must lie in 0..10. -/
def checkPipelineNumbers (max_parallel retry_attempts : Int) : Bool :=
  1 ≤ max_parallel && (0 ≤ retry_attempts && retry_attempts ≤ 10)

/-- The job named `a` depends directly on the name `b`. -/
def depEdge (jobs : List Job) (a b : String) : Prop :=
  ∃ j ∈ jobs, j.name = a ∧ b ∈ j.depends_on

instance (jobs : List Job) (a b : String) : Decidable (depEdge jobs a b) :=
  List.decidableBEx _ jobs

/-- The non-empty list `c` is a dependency cycle: each entry depends
directly on the next one, cyclically. -/
def isCycle (jobs : List Job) (c : List String) : Prop :=
  c ≠ [] ∧ ∀ i : Fin c.length,
    depEdge jobs (c.get i)
      (c.get ⟨(i.1 + 1) % c.length,
        Nat.mod_lt _ (Nat.lt_of_le_of_lt (Nat.zero_le _) i.isLt)⟩)

instance (jobs : List Job) (c : List String) : Decidable (isCycle jobs c) :=
  instDecidableAnd

end PipelineSpec

/-- A character of the spec-side name format `^[a-z0-9_]+$`: a lowercase
letter, a digit or an underscore. -/
def isPatChar (c : Char) : Bool :=
  ('a' ≤ c ∧ c ≤ 'z') ∨ ('0' ≤ c ∧ c ≤ '9') ∨ c = '_'

/-- The spec-side name format `^[a-z0-9_]+$`: non-empty, every character a
lowercase letter, a digit or an underscore.  Stated from the spec for
comparison with the source validators. -/
def matchesNamePattern (s : PyStr) : Bool :=
  !s.isEmpty && s.all isPatChar

/-- A character is printable ASCII (the scope on which the embedded string
functions agree with CPython). -/
def isAscii (c : Char) : Bool := c.toNat < 128

/-!
Theorems.
-/

/-- C2 counterexample: odibi_snippets `ReadConfig` accepts a document in
which `table` and `path` are both provided (and both truthy), contradicting
the claim that construction fails whenever both are given. -/
theorem readConfig_accepts_both_table_and_path :
    truthy (some "t".data) = true ∧ truthy (some "p".data) = true ∧
    Odibi.ReadConfig.validate "x".data "csv".data (some "t".data)
      (some "p".data) [] =
      .ok ⟨"x".data, "csv".data, some "t".data, some "p".data, []⟩ := by
  decide

/-- C2 (amended): odibi_snippets `ReadConfig` and `WriteConfig` fail
exactly when neither `table` nor `path` is truthy — both-provided is
accepted — while lesson `WriteConfig` enforces the full exclusion:
construction succeeds exactly when exactly one of `path`, `table` is
truthy. -/
theorem read_write_path_table_exclusion (conn fmt : PyStr)
    (table path : Option PyStr) (opts : PyDict) (mode : Odibi.WriteMode)
    (lmode : Lesson.WriteMode) :
    ((∃ r, Odibi.ReadConfig.validate conn fmt table path opts = .ok r) ↔
      (truthy table = true ∨ truthy path = true))
    ∧ ((∃ w, Odibi.WriteConfig.validate conn fmt table path mode opts
        = .ok w) ↔ (truthy table = true ∨ truthy path = true))
    ∧ ((∃ w, Lesson.WriteConfig.validate conn path table lmode = .ok w) ↔
      ((truthy path = true ∧ truthy table = false) ∨
        (truthy path = false ∧ truthy table = true))) := by
  refine ⟨?_, ?_, ?_⟩ <;>
    [simp only [Odibi.ReadConfig.validate];
      simp only [Odibi.WriteConfig.validate];
      simp only [Lesson.WriteConfig.validate]] <;>
    cases htab : truthy table <;> cases hpath : truthy path <;> simp [htab, hpath]

/-- C4 counterexample: odibi_snippets `TransformStep` accepts `sql` set to
the empty string with `function` and `operation` absent — zero fields are
non-empty, yet construction succeeds, because the validator tests
`is not None`, not emptiness. -/
theorem transformStep_accepts_empty_sql :
    truthy (some []) = false ∧
    Odibi.TransformStep.validate (some []) none none [] =
      .ok ⟨some [], none, none, []⟩ := by
  decide

/-- C4 (amended): odibi_snippets `TransformStep` succeeds exactly when
exactly one of `sql`, `function`, `operation` is not `None` (an empty
string counts as provided); lesson `TransformStep`, which has only `sql`
and `function`, succeeds exactly when exactly one of them is truthy. -/
theorem transformStep_exactly_one (sql function operation : Option PyStr)
    (params : PyDict) :
    ((∃ s, Odibi.TransformStep.validate sql function operation params
        = .ok s) ↔
      ((sql ≠ none ∧ function = none ∧ operation = none) ∨
        (sql = none ∧ function ≠ none ∧ operation = none) ∨
        (sql = none ∧ function = none ∧ operation ≠ none)))
    ∧ ((∃ s, Lesson.TransformStep.validate sql function params = .ok s) ↔
      ((truthy sql = true ∧ truthy function = false) ∨
        (truthy sql = false ∧ truthy function = true))) := by
  constructor
  · simp only [Odibi.TransformStep.validate]
    cases sql <;> cases function <;> cases operation <;>
      simp [List.countP_cons, List.countP_nil]
  · simp only [Lesson.TransformStep.validate]
    cases hs : truthy sql <;> cases hf : truthy function <;> simp [hs, hf]

/-- C10 (confirmed): in odibi_snippets `ReadConfig` and `WriteConfig`,
presence of `path`/`table` is decided by truthiness, so an explicitly
supplied empty string counts as absent: with one field the empty string
and the other not provided, construction fails with the
either-table-or-path error. -/
theorem read_write_empty_string_is_absent (conn fmt : PyStr) (opts : PyDict)
    (mode : Odibi.WriteMode) :
    Odibi.ReadConfig.validate conn fmt none (some []) opts =
      .error .readNeedsTableOrPath
    ∧ Odibi.ReadConfig.validate conn fmt (some []) none opts =
      .error .readNeedsTableOrPath
    ∧ Odibi.WriteConfig.validate conn fmt none (some []) mode opts =
      .error .writeNeedsTableOrPath
    ∧ Odibi.WriteConfig.validate conn fmt (some []) none mode opts =
      .error .writeNeedsTableOrPath :=
  ⟨rfl, rfl, rfl, rfl⟩

/-- A list whose deduplication preserves length has no duplicates, and
conversely; this is the property CPython tests with
`len(v) != len(set(v))`. -/
theorem dedup_length_eq_iff {α : Type} [DecidableEq α] (l : List α) :
    l.dedup.length = l.length ↔ l.Nodup := by
  constructor
  · intro h
    have heq := (List.dedup_sublist l).eq_of_length h
    rw [← heq]
    exact l.nodup_dedup
  · intro h
    rw [List.dedup_eq_self.mpr h]

/-- C6 counterexample: lesson `NodeConfig` accepts a node whose
`depends_on` list contains the node's own name; no self-reference check
exists in the source. -/
theorem nodeConfig_accepts_self_reference :
    Lesson.NodeConfig.validate "a".data ["a".data] none =
      .ok ⟨"a".data, ["a".data], none⟩ := by
  decide

/-- C6 (amended): lesson `NodeConfig` rejects a duplicated `depends_on`
entry (and every constructed node has duplicate-free dependencies), but a
self-referencing entry is not rejected, and odibi_snippets `NodeConfig`
does not validate `depends_on` at all — it accepts duplicates and
self-references alike. -/
theorem nodeConfig_dependencies_validation (name : PyStr)
    (deps : List PyStr) (t : Option Int) (n : PyStr)
    (hname : Lesson.NodeConfig.validate_name name = .ok n) :
    (¬ deps.Nodup →
      Lesson.NodeConfig.validate name deps t = .error .duplicateDependencies)
    ∧ (∀ node, Lesson.NodeConfig.validate name deps t = .ok node →
        node.depends_on.Nodup)
    ∧ (∀ desc r cache val,
        Odibi.NodeConfig.validate name desc (name :: name :: deps) (some r)
          none none cache val =
        .ok ⟨name, desc, name :: name :: deps, some r, none, none, cache,
          val⟩) := by
  refine ⟨?_, ?_, ?_⟩
  · intro hdup
    have hlen : deps.length ≠ deps.dedup.length := by
      intro h
      exact hdup ((dedup_length_eq_iff deps).mp h.symm)
    simp [Lesson.NodeConfig.validate, hname, Bind.bind, Except.bind,
      Lesson.NodeConfig.validate_dependencies, hlen]
  · intro node h
    simp only [Lesson.NodeConfig.validate, hname, Bind.bind, Except.bind,
      Lesson.NodeConfig.validate_dependencies] at h
    by_cases hlen : deps.length = deps.dedup.length
    · simp only [hlen, ne_eq, not_true_eq_false, if_false, if_neg] at h
      simp only [Except.ok.injEq] at h
      subst h
      exact (dedup_length_eq_iff deps).mp hlen.symm
    · simp [hlen] at h
  · intro desc r cache val
    rfl

/-- C6 witness: a concrete duplicated dependency list is rejected by
lesson `NodeConfig`. -/
theorem nodeConfig_dependencies_validation_witness :
    Lesson.NodeConfig.validate "a".data ["b".data, "b".data] none =
      .error .duplicateDependencies :=
  (nodeConfig_dependencies_validation "a".data ["b".data, "b".data] none
    "a".data (by decide)).1 (by decide)

/-- C7 (confirmed): a node with none of `read`, `transform`, `write` is
rejected by odibi_snippets `NodeConfig` and by lesson
`CompleteNodeConfig`, and every successfully constructed node of either
kind has at least one of the three present. -/
theorem node_at_least_one_operation (name : PyStr) (desc : Option PyStr)
    (deps : List PyStr) (read : Option Odibi.ReadConfig)
    (transform : Option Lesson.TransformConfig)
    (write : Option Odibi.WriteConfig) (cache : Bool)
    (val : Option Odibi.ValidationConfig) (lread : Option Lesson.ReadConfig)
    (ltransform : Option Lesson.TransformConfig)
    (lwrite : Option Lesson.WriteConfig) :
    (Odibi.NodeConfig.validate name desc deps none none none cache val =
      .error (.nodeNeedsOperation name))
    ∧ (∀ node, Odibi.NodeConfig.validate name desc deps read transform write
        cache val = .ok node →
        node.read.isSome ∨ node.transform.isSome ∨ node.write.isSome)
    ∧ (∀ n, Lesson.CompleteNodeConfig.validate_name name = .ok n →
        Lesson.CompleteNodeConfig.validate name desc deps none none none =
          .error (.nodeNeedsOperation n))
    ∧ (∀ node, Lesson.CompleteNodeConfig.validate name desc deps lread
        ltransform lwrite = .ok node →
        node.read.isSome ∨ node.transform.isSome ∨ node.write.isSome) := by
  refine ⟨rfl, ?_, ?_, ?_⟩
  · intro node h
    cases read <;> cases transform <;> cases write <;>
      simp_all [Odibi.NodeConfig.validate] <;> (subst h; simp)
  · intro n hn
    simp [Lesson.CompleteNodeConfig.validate, hn, Bind.bind, Except.bind]
  · intro node h
    cases hv : Lesson.CompleteNodeConfig.validate_name name <;>
      simp only [Lesson.CompleteNodeConfig.validate, hv, Bind.bind,
        Except.bind] at h
    · exact absurd h (by simp)
    · cases lread <;> cases ltransform <;> cases lwrite <;> simp_all <;>
        (subst h; simp)

/-- C7 witness: the concrete operation-free node is rejected and a node
with a read operation is accepted with the invariant visible. -/
theorem node_at_least_one_operation_witness :
    Lesson.CompleteNodeConfig.validate "a".data none [] none none none =
      .error (.nodeNeedsOperation "a".data) :=
  (node_at_least_one_operation "a".data none [] none none none false none
    none none none).2.2.1 "a".data (by decide)

/-- C9 counterexample: odibi_snippets `RetryConfig` rejects `max_attempts
= 0` (its bound is `ge=1`), contradicting the claim that the
retry-attempts setting accepts the whole range 0..10. -/
theorem retryConfig_rejects_zero_attempts :
    Odibi.RetryConfig.validate true 0 "exponential".data =
      .error .maxAttemptsOutOfRange := by
  decide

/-- C9 (amended): the implemented retry setting,
`RetryConfig.max_attempts`, accepts exactly the integers 1..10 (with a
backoff matching the declared pattern), rejecting 0; the pipeline-level
`max_parallel` (at least 1) and `retry_attempts` (0..10, 0 included)
bounds, whose `PipelineConfig` is a TODO stub, hold of the spec-modelled
check. -/
theorem retry_and_parallel_ranges (enabled : Bool) (ma mp ra : Int)
    (backoff : PyStr) :
    ((∃ r, Odibi.RetryConfig.validate enabled ma backoff = .ok r) ↔
      ((1 ≤ ma ∧ ma ≤ 10) ∧ (backoff = "exponential".data ∨
        backoff = "linear".data ∨ backoff = "constant".data)))
    ∧ (PipelineSpec.checkPipelineNumbers mp ra = true ↔
      (1 ≤ mp ∧ 0 ≤ ra ∧ ra ≤ 10)) := by
  constructor
  · constructor
    · rintro ⟨r, hr⟩
      by_cases h1 : 1 ≤ ma ∧ ma ≤ 10
      · by_cases h2 : backoff ≠ "exponential".data ∧
            backoff ≠ "linear".data ∧ backoff ≠ "constant".data
        · simp [Odibi.RetryConfig.validate, h1, h2] at hr
        · refine ⟨h1, ?_⟩
          push_neg at h2
          by_cases he : backoff = "exponential".data
          · exact Or.inl he
          · by_cases hl : backoff = "linear".data
            · exact Or.inr (Or.inl hl)
            · exact Or.inr (Or.inr (h2 he hl))
      · simp [Odibi.RetryConfig.validate, h1] at hr
    · rintro ⟨h1, h2⟩
      have h2' : ¬(backoff ≠ "exponential".data ∧ backoff ≠ "linear".data ∧
          backoff ≠ "constant".data) := by tauto
      simp [Odibi.RetryConfig.validate, h1, h2']
  · simp [PipelineSpec.checkPipelineNumbers, and_assoc]

/-- Character order on `Char` is the order of the underlying code points. -/
theorem char_le_iff_toNat (a b : Char) : a ≤ b ↔ a.toNat ≤ b.toNat := Iff.rfl

/-- Characters are equal exactly when their code points are. -/
theorem char_eq_iff_toNat (a b : Char) : a = b ↔ a.toNat = b.toNat := by
  constructor
  · intro h
    rw [h]
  · intro h
    exact le_antisymm (show a ≤ b from Nat.le_of_eq h)
      (show b ≤ a from Nat.le_of_eq h.symm)

/-- Building a character from a valid code point preserves the code
point. -/
theorem char_toNat_ofNat (n : Nat) (h : n.isValidChar) :
    (Char.ofNat n).toNat = n := by
  unfold Char.ofNat
  rw [dif_pos h]
  rfl

/-- Lowercasing an uppercase letter adds 32 to its code point. -/
theorem pyLowerChar_toNat_of_upper {c : Char} (h : 'A' ≤ c ∧ c ≤ 'Z') :
    (pyLowerChar c).toNat = c.toNat + 32 := by
  unfold pyLowerChar
  rw [if_pos h]
  have hle : c.toNat ≤ 90 := (char_le_iff_toNat c 'Z').mp h.2
  exact char_toNat_ofNat _ (Or.inl (by omega))

/-- Lowercasing leaves a non-uppercase character unchanged. -/
theorem pyLowerChar_eq_of_not_upper {c : Char} (h : ¬('A' ≤ c ∧ c ≤ 'Z')) :
    pyLowerChar c = c := by
  unfold pyLowerChar
  rw [if_neg h]

/-- A character lowercases into the name pattern `[a-z0-9_]` exactly when
it is alphanumeric or an underscore. -/
theorem isPatChar_pyLowerChar (c : Char) :
    isPatChar (pyLowerChar c) = true ↔ (pyIsAlnum c = true ∨ c = '_') := by
  have ea : ('a').toNat = 97 := rfl
  have ez : ('z').toNat = 122 := rfl
  have eA : ('A').toNat = 65 := rfl
  have eZ : ('Z').toNat = 90 := rfl
  have e0 : ('0').toNat = 48 := rfl
  have e9 : ('9').toNat = 57 := rfl
  have eu : ('_').toNat = 95 := rfl
  by_cases h : 'A' ≤ c ∧ c ≤ 'Z'
  · have h32 := pyLowerChar_toNat_of_upper h
    have h1 : 65 ≤ c.toNat := (char_le_iff_toNat 'A' c).mp h.1
    have h2 : c.toNat ≤ 90 := (char_le_iff_toNat c 'Z').mp h.2
    simp only [isPatChar, pyIsAlnum, char_le_iff_toNat, char_eq_iff_toNat,
      h32, Bool.or_eq_true, decide_eq_true_eq]
    rw [ea, ez, eA, eZ, e0, e9, eu]
    omega
  · rw [pyLowerChar_eq_of_not_upper h]
    have h3 : ¬(65 ≤ c.toNat ∧ c.toNat ≤ 90) := by
      intro hc
      exact h ⟨(char_le_iff_toNat 'A' c).mpr hc.1,
        (char_le_iff_toNat c 'Z').mpr hc.2⟩
    simp only [isPatChar, pyIsAlnum, char_le_iff_toNat, char_eq_iff_toNat,
      Bool.or_eq_true, decide_eq_true_eq]
    rw [ea, ez, eA, eZ, e0, e9, eu]
    omega

/-- An alphanumeric character never lowercases to an underscore. -/
theorem pyLowerChar_ne_underscore {c : Char} (h : pyIsAlnum c = true) :
    ¬ pyLowerChar c = '_' := by
  have ea : ('a').toNat = 97 := rfl
  have ez : ('z').toNat = 122 := rfl
  have eA : ('A').toNat = 65 := rfl
  have eZ : ('Z').toNat = 90 := rfl
  have e0 : ('0').toNat = 48 := rfl
  have e9 : ('9').toNat = 57 := rfl
  have eu : ('_').toNat = 95 := rfl
  by_cases hu : 'A' ≤ c ∧ c ≤ 'Z'
  · have h32 := pyLowerChar_toNat_of_upper hu
    have h1 : 65 ≤ c.toNat := (char_le_iff_toNat 'A' c).mp hu.1
    have h2 : c.toNat ≤ 90 := (char_le_iff_toNat c 'Z').mp hu.2
    rw [char_eq_iff_toNat, h32, eu]
    omega
  · rw [pyLowerChar_eq_of_not_upper hu]
    simp only [pyIsAlnum, char_le_iff_toNat, Bool.or_eq_true,
      decide_eq_true_eq] at h
    rw [ea, ez, eA, eZ, e0, e9] at h
    have h3 : ¬(65 ≤ c.toNat ∧ c.toNat ≤ 90) := by
      intro hc
      exact hu ⟨(char_le_iff_toNat 'A' c).mpr hc.1,
        (char_le_iff_toNat c 'Z').mpr hc.2⟩
    rw [char_eq_iff_toNat, eu]
    omega

/-- The test CPython performs on a candidate name — the string with
underscores removed is `isalnum` — holds exactly when the lowercased
string matches `^[a-z0-9_]+$` and keeps at least one non-underscore
character. -/
theorem mem_pyRemoveUnderscores {u : PyStr} {c : Char} :
    c ∈ pyRemoveUnderscores u ↔ (c ∈ u ∧ ¬c = '_') := by
  simp [pyRemoveUnderscores, List.mem_filter]

theorem strIsAlnum_filter_iff (u : PyStr) :
    pyStrIsAlnum (pyRemoveUnderscores u) = true ↔
      (matchesNamePattern (pyLower u) = true ∧
        (pyLower u).any (fun c => c ≠ '_') = true) := by
  simp only [pyStrIsAlnum, matchesNamePattern, Bool.and_eq_true,
    Bool.not_eq_true', List.isEmpty_eq_false, List.all_eq_true,
    List.any_eq_true, decide_eq_true_eq]
  constructor
  · rintro ⟨hne, hall⟩
    obtain ⟨c0, hc0⟩ := List.exists_mem_of_ne_nil _ hne
    obtain ⟨hc0u, hc0ne⟩ := mem_pyRemoveUnderscores.mp hc0
    refine ⟨⟨?_, ?_⟩, ?_⟩
    · simp only [pyLower, ne_eq, List.map_eq_nil_iff]
      intro hu
      rw [hu] at hc0u
      exact (List.not_mem_nil c0) hc0u
    · intro d hd
      obtain ⟨c, hcu, rfl⟩ := List.mem_map.mp hd
      by_cases hc : c = '_'
      · subst hc
        decide
      · exact (isPatChar_pyLowerChar c).mpr
          (Or.inl (hall c (mem_pyRemoveUnderscores.mpr ⟨hcu, hc⟩)))
    · exact ⟨pyLowerChar c0, List.mem_map_of_mem _ hc0u,
        pyLowerChar_ne_underscore (hall c0 hc0)⟩
  · rintro ⟨⟨hne, hall⟩, d, hd, hdne⟩
    obtain ⟨c, hcu, rfl⟩ := List.mem_map.mp hd
    have hcne : ¬c = '_' := by
      intro hc
      subst hc
      exact hdne (by decide)
    constructor
    · intro hnil
      have : c ∈ pyRemoveUnderscores u := mem_pyRemoveUnderscores.mpr ⟨hcu, hcne⟩
      rw [hnil] at this
      exact (List.not_mem_nil c) this
    · intro a ha
      obtain ⟨hau, hane⟩ := mem_pyRemoveUnderscores.mp ha
      have hpat := hall (pyLowerChar a) (List.mem_map_of_mem _ hau)
      rcases (isPatChar_pyLowerChar a).mp hpat with h | h
      · exact h
      · exact absurd h hane

/-- Lowercasing is idempotent on characters. -/
theorem pyLowerChar_idem (c : Char) :
    pyLowerChar (pyLowerChar c) = pyLowerChar c := by
  have eZ : ('Z').toNat = 90 := rfl
  by_cases h : 'A' ≤ c ∧ c ≤ 'Z'
  · have h32 := pyLowerChar_toNat_of_upper h
    have h2 : c.toNat ≤ 90 := (char_le_iff_toNat c 'Z').mp h.2
    apply pyLowerChar_eq_of_not_upper
    intro hc
    have hc2 : (pyLowerChar c).toNat ≤ 90 :=
      (char_le_iff_toNat (pyLowerChar c) 'Z').mp hc.2
    have h1 : 65 ≤ c.toNat := (char_le_iff_toNat 'A' c).mp h.1
    omega
  · rw [pyLowerChar_eq_of_not_upper h, pyLowerChar_eq_of_not_upper h]

/-- Lowercasing is idempotent on strings. -/
theorem pyLower_idem (s : PyStr) : pyLower (pyLower s) = pyLower s := by
  simp only [pyLower, List.map_map]
  exact List.map_congr_left (fun c _ => pyLowerChar_idem c)

/-- C3 counterexample: the name consisting of a single underscore matches
the spec format `^[a-z0-9_]+$` (it is already normalized), yet both
lesson name validators reject it, because removing underscores leaves the
empty string and CPython `isalnum` is false on the empty string. -/
theorem underscore_name_rejected :
    matchesNamePattern (pyLower (pyStrip "_".data)) = true ∧
    Lesson.NodeConfig.validate_name "_".data = .error .nodeNameNotAlnum ∧
    Lesson.CompleteNodeConfig.validate_name "_".data =
      .error .nodeNameNotAlnum := by
  decide

/-- C3 (amended): for ASCII input (where the embedded string functions
agree with CPython), a node name is accepted by
`NodeConfig.validate_name` and by `CompleteNodeConfig.validate_name`
exactly when its trimmed-and-lowercased form matches `^[a-z0-9_]+$` and
contains at least one character besides underscore, and the stored name
is then exactly that normalized form. -/
theorem name_normalization (s : PyStr)
    (hascii : ∀ c ∈ s, isAscii c = true) :
    (∀ r, Lesson.NodeConfig.validate_name s = .ok r ↔
      (matchesNamePattern (pyLower (pyStrip s)) = true ∧
        (pyLower (pyStrip s)).any (fun c => c ≠ '_') = true ∧
        r = pyLower (pyStrip s)))
    ∧ (∀ r, Lesson.CompleteNodeConfig.validate_name s = .ok r ↔
      (matchesNamePattern (pyLower (pyStrip s)) = true ∧
        (pyLower (pyStrip s)).any (fun c => c ≠ '_') = true ∧
        r = pyLower (pyStrip s))) := by
  constructor
  · intro r
    simp only [Lesson.NodeConfig.validate_name]
    by_cases hemp : (pyStrip s).isEmpty = true
    · rw [if_pos hemp]
      rw [List.isEmpty_iff] at hemp
      rw [hemp]
      simp [matchesNamePattern, pyLower]
    · rw [if_neg hemp]
      by_cases halnum :
          pyStrIsAlnum (pyRemoveUnderscores (pyStrip s)) = true
      · have hiff := (strIsAlnum_filter_iff (pyStrip s)).mp halnum
        rw [halnum]
        simp only [Bool.not_true]
        rw [if_neg Bool.false_ne_true]
        simp only [Except.ok.injEq, hiff.1, hiff.2, true_and]
        exact eq_comm
      · have hfalse : pyStrIsAlnum (pyRemoveUnderscores (pyStrip s)) = false :=
          Bool.eq_false_iff.mpr halnum
        have hnot : ¬(matchesNamePattern (pyLower (pyStrip s)) = true ∧
            (pyLower (pyStrip s)).any (fun c => c ≠ '_') = true) := by
          intro hcon
          exact halnum ((strIsAlnum_filter_iff (pyStrip s)).mpr hcon)
        rw [hfalse]
        simp only [Bool.not_false]
        rw [if_pos trivial]
        constructor
        · intro h
          exact absurd h (by simp)
        · rintro ⟨h1, h2, h3⟩
          exact (hnot ⟨h1, h2⟩).elim
  · intro r
    simp only [Lesson.CompleteNodeConfig.validate_name]
    by_cases halnum :
        pyStrIsAlnum (pyRemoveUnderscores (pyLower (pyStrip s))) = true
    · have hiff := (strIsAlnum_filter_iff (pyLower (pyStrip s))).mp halnum
      rw [pyLower_idem] at hiff
      rw [halnum]
      simp only [Bool.not_true]
      rw [if_neg Bool.false_ne_true]
      simp only [Except.ok.injEq, hiff.1, hiff.2, true_and]
      exact eq_comm
    · have hfalse :
          pyStrIsAlnum (pyRemoveUnderscores (pyLower (pyStrip s))) = false :=
        Bool.eq_false_iff.mpr halnum
      have hnot : ¬(matchesNamePattern (pyLower (pyStrip s)) = true ∧
          (pyLower (pyStrip s)).any (fun c => c ≠ '_') = true) := by
        intro hcon
        apply halnum
        rw [strIsAlnum_filter_iff, pyLower_idem]
        exact hcon
      rw [hfalse]
      simp only [Bool.not_false]
      rw [if_pos trivial]
      constructor
      · intro h
        exact absurd h (by simp)
      · rintro ⟨h1, h2, h3⟩
        exact (hnot ⟨h1, h2⟩).elim

/-- C3 witness: the spec example — the input name `Job_1 ` (with a
trailing blank) is accepted and stored as `job_1`. -/
theorem name_normalization_witness :
    Lesson.NodeConfig.validate_name "Job_1 ".data = .ok "job_1".data :=
  ((name_normalization "Job_1 ".data (by decide)).1 "job_1".data).mpr
    (by decide)

namespace PipelineSpec

/-- With duplicate-free job names, a job record is determined by its
name. -/
theorem job_eq_of_name_eq {jobs : List Job}
    (hnd : (declaredNames jobs).Nodup) {j1 j2 : Job}
    (h1 : j1 ∈ jobs) (h2 : j2 ∈ jobs) (he : j1.name = j2.name) : j1 = j2 :=
  List.inj_on_of_nodup_map (by simpa [declaredNames] using hnd) h1 h2 he

/-- Membership in one elimination round: a name is there because it was
already removed, or because its job has every dependency removed. -/
theorem mem_removeRound_iff {jobs : List Job} {removed : List String}
    {n : String} :
    n ∈ removeRound jobs removed ↔
      (n ∈ removed ∨ ∃ j ∈ jobs, j.name = n ∧
        ∀ d ∈ j.depends_on, d ∈ removed) := by
  simp only [removeRound, List.mem_append, List.mem_map, List.mem_filter,
    Bool.and_eq_true, Bool.not_eq_true', List.all_eq_true]
  constructor
  · rintro (h | ⟨j, ⟨hj, hnr, hdeps⟩, hname⟩)
    · exact Or.inl h
    · refine Or.inr ⟨j, hj, hname, ?_⟩
      intro d hd
      exact List.elem_iff.mp (hdeps d hd)
  · rintro (h | ⟨j, hj, hname, hdeps⟩)
    · exact Or.inl h
    · by_cases hmem : n ∈ removed
      · exact Or.inl hmem
      · refine Or.inr ⟨j, ⟨hj, ?_, ?_⟩, hname⟩
        · rw [← Bool.not_eq_true]
          intro hco
          rw [hname] at hco
          exact hmem (List.elem_iff.mp hco)
        · intro d hd
          exact List.elem_iff.mpr (hdeps d hd)

/-- Every name appearing on a dependency cycle is a declared job name. -/
theorem cycle_mem_declared {jobs : List Job} {c : List String}
    (hc : isCycle jobs c) : ∀ n ∈ c, n ∈ declaredNames jobs := by
  intro n hn
  obtain ⟨i, hi⟩ := List.mem_iff_get.mp hn
  obtain ⟨j, hj, hjn, -⟩ := hc.2 i
  rw [← hi, ← hjn]
  exact List.mem_map_of_mem Job.name hj

/-- No name on a dependency cycle is ever removed by the elimination
rounds: the first cycle node removed would need its cycle successor
removed strictly earlier. -/
theorem cycle_never_removed {jobs : List Job}
    (hnd : (declaredNames jobs).Nodup) {c : List String}
    (hc : isCycle jobs c) :
    ∀ k, ∀ n ∈ c, n ∉ removedAfter jobs k := by
  intro k
  induction k with
  | zero =>
    intro n _ h
    exact (List.not_mem_nil n) h
  | succ k ih =>
    intro n hn hmem
    rcases mem_removeRound_iff.mp hmem with h | ⟨j, hj, hjn, hdeps⟩
    · exact ih n hn h
    · obtain ⟨i, hi⟩ := List.mem_iff_get.mp hn
      obtain ⟨j2, hj2, hj2n, hmdep⟩ := hc.2 i
      have hj2j : j2 = j :=
        job_eq_of_name_eq hnd hj2 hj (by rw [hj2n, hi, hjn])
      rw [hj2j] at hmdep
      have hmrem := hdeps _ hmdep
      exact ih _ (List.mem_iff_get.mpr ⟨_, rfl⟩) hmrem

/-- Every name on a dependency cycle survives into the `CycleViolation`
report. -/
theorem cycle_subset_unsorted {jobs : List Job} {c : List String}
    (hnd : (declaredNames jobs).Nodup) (hc : isCycle jobs c) :
    ∀ n ∈ c, n ∈ unsortedJobs jobs := by
  intro n hn
  unfold unsortedJobs
  rw [List.mem_filter]
  refine ⟨cycle_mem_declared hc n hn, ?_⟩
  have hnr := cycle_never_removed hnd hc jobs.length n hn
  cases hcb : (removedAfter jobs jobs.length).contains n
  · rfl
  · exact (hnr (List.elem_iff.mp hcb)).elim

/-- The dangling scan returns nothing exactly when every dependency is
declared. -/
theorem findDangling_none_iff {declared : List String} {js : List Job} :
    findDangling declared js = none ↔
      ∀ j ∈ js, ∀ d ∈ j.depends_on, d ∈ declared := by
  induction js with
  | nil => simp [findDangling]
  | cons j rest ih =>
    cases hf : j.depends_on.find? (fun d => !declared.contains d) with
    | some d =>
      simp only [findDangling, hf]
      have hd := List.find?_some hf
      have hdm := List.mem_of_find?_eq_some hf
      constructor
      · intro h
        simp at h
      · intro hall
        have hcont : declared.contains d = true :=
          List.elem_iff.mpr (hall j (List.mem_cons_self j rest) d hdm)
        rw [hcont] at hd
        exact absurd hd (by simp)
    | none =>
      simp only [findDangling, hf]
      rw [List.find?_eq_none] at hf
      have hjdep : ∀ d ∈ j.depends_on, d ∈ declared := by
        intro d hd
        by_contra hmem
        apply hf d hd
        have hco : declared.contains d = false := by
          rw [← Bool.not_eq_true]
          intro hco
          exact hmem (List.elem_iff.mp hco)
        rw [hco]
        rfl
      rw [ih, List.forall_mem_cons]
      constructor
      · intro hrest
        exact ⟨hjdep, hrest⟩
      · intro hall
        exact hall.2

/-- A pair returned by the dangling scan names an undeclared
dependency. -/
theorem findDangling_some_spec {declared : List String} {js : List Job}
    {jn dn : String} (h : findDangling declared js = some (jn, dn)) :
    dn ∉ declared := by
  induction js with
  | nil => simp [findDangling] at h
  | cons j rest ih =>
    cases hf : j.depends_on.find? (fun d => !declared.contains d) with
    | some d =>
      simp only [findDangling, hf, Option.some.injEq, Prod.mk.injEq] at h
      obtain ⟨h1, h2⟩ := h
      subst h2
      have hd := List.find?_some hf
      intro hmem
      have hco : declared.contains d = true := List.elem_iff.mpr hmem
      rw [hco] at hd
      exact absurd hd (by simp)
    | none =>
      simp only [findDangling, hf] at h
      exact ih h

/-- The uniqueness check passes exactly when the declared names have no
duplicate. -/
theorem checkUniqueNames_ok_iff {jobs : List Job} :
    checkUniqueNames jobs = .ok () ↔ (declaredNames jobs).Nodup := by
  constructor
  · intro hok
    unfold checkUniqueNames at hok
    by_cases h : (declaredNames jobs).dedup.length =
        (declaredNames jobs).length
    · exact (dedup_length_eq_iff _).mp h
    · rw [if_neg h] at hok
      exact absurd hok (by simp)
  · intro hnd
    unfold checkUniqueNames
    rw [if_pos ((dedup_length_eq_iff _).mpr hnd)]

/-- The referential-integrity check passes exactly when every
`depends_on` entry is a declared job name. -/
theorem checkDanglingRefs_ok_iff {jobs : List Job} :
    checkDanglingRefs jobs = .ok () ↔
      ∀ j ∈ jobs, ∀ d ∈ j.depends_on, d ∈ declaredNames jobs := by
  unfold checkDanglingRefs
  cases hf : findDangling (declaredNames jobs) jobs with
  | none =>
    constructor
    · intro _
      exact findDangling_none_iff.mp hf
    · intro _
      rfl
  | some p =>
    obtain ⟨jn, dn⟩ := p
    constructor
    · intro h
      exact absurd h (by simp)
    · intro hall
      rw [findDangling_none_iff.mpr hall] at hf
      exact absurd hf (by simp)

/-- The cross-record pass succeeds exactly when all three checks do. -/
theorem checkPipelineDeps_ok_iff {jobs : List Job} :
    checkPipelineDeps jobs = .ok () ↔
      (checkUniqueNames jobs = .ok () ∧ checkDanglingRefs jobs = .ok () ∧
        checkAcyclic jobs = .ok ()) := by
  unfold checkPipelineDeps
  cases h1 : checkUniqueNames jobs with
  | error e => simp [Bind.bind, Except.bind]
  | ok u =>
    cases u
    cases h2 : checkDanglingRefs jobs with
    | error e => simp [Bind.bind, Except.bind]
    | ok u =>
      cases u
      simp [Bind.bind, Except.bind]

/-- A dangling violation surfaces as the result of the whole pass. -/
theorem checkPipelineDeps_error_dangling {jobs : List Job} {e : Violation}
    (h1 : checkUniqueNames jobs = .ok ())
    (h2 : checkDanglingRefs jobs = .error e) :
    checkPipelineDeps jobs = .error e := by
  unfold checkPipelineDeps
  rw [h1, h2]
  rfl

/-- A cycle violation surfaces as the result of the whole pass. -/
theorem checkPipelineDeps_error_cycle {jobs : List Job} {e : Violation}
    (h1 : checkUniqueNames jobs = .ok ())
    (h2 : checkDanglingRefs jobs = .ok ())
    (h3 : checkAcyclic jobs = .error e) :
    checkPipelineDeps jobs = .error e := by
  unfold checkPipelineDeps
  rw [h1, h2, h3]
  rfl

end PipelineSpec

/-- C1 (confirmed, spec-modelled): for a job list with unique names and
no dangling references, any dependency cycle makes the cross-record pass
of `PipelineConfig` construction fail with a `CycleViolation` whose
report contains every node of the cycle; and whenever the pass succeeds
the dependency graph is acyclic. -/
theorem pipelineConfig_cycle_detection (jobs : List PipelineSpec.Job) :
    ((PipelineSpec.declaredNames jobs).Nodup →
      (∀ j ∈ jobs, ∀ d ∈ j.depends_on,
        d ∈ PipelineSpec.declaredNames jobs) →
      ∀ c, PipelineSpec.isCycle jobs c →
        ∃ rem, PipelineSpec.checkPipelineDeps jobs =
            .error (.cycleViolation rem) ∧
          ∀ n ∈ c, n ∈ rem)
    ∧ (PipelineSpec.checkPipelineDeps jobs = .ok () →
        ∀ c, ¬ PipelineSpec.isCycle jobs c) := by
  constructor
  · intro hnd hnodangling c hc
    refine ⟨PipelineSpec.unsortedJobs jobs, ?_,
      PipelineSpec.cycle_subset_unsorted hnd hc⟩
    apply PipelineSpec.checkPipelineDeps_error_cycle
    · exact PipelineSpec.checkUniqueNames_ok_iff.mpr hnd
    · exact PipelineSpec.checkDanglingRefs_ok_iff.mpr hnodangling
    · unfold PipelineSpec.checkAcyclic
      obtain ⟨n0, hn0⟩ := List.exists_mem_of_ne_nil c hc.1
      rw [if_neg (List.ne_nil_of_mem
        (PipelineSpec.cycle_subset_unsorted hnd hc n0 hn0))]
  · intro hok c hc
    obtain ⟨h1, h2, h3⟩ := PipelineSpec.checkPipelineDeps_ok_iff.mp hok
    have hnd := PipelineSpec.checkUniqueNames_ok_iff.mp h1
    have hempty : PipelineSpec.unsortedJobs jobs = [] := by
      by_contra hne
      unfold PipelineSpec.checkAcyclic at h3
      rw [if_neg hne] at h3
      exact absurd h3 (by simp)
    obtain ⟨n0, hn0⟩ := List.exists_mem_of_ne_nil c hc.1
    have hmem := PipelineSpec.cycle_subset_unsorted hnd hc n0 hn0
    rw [hempty] at hmem
    exact (List.not_mem_nil n0) hmem

/-- C1 witness: the two-job cycle a depends on b, b depends on a is
rejected with a `CycleViolation` naming both a and b. -/
theorem pipelineConfig_cycle_detection_witness :
    ∃ rem, PipelineSpec.checkPipelineDeps
        [⟨"a", ["b"]⟩, ⟨"b", ["a"]⟩] = .error (.cycleViolation rem) ∧
      ∀ n ∈ (["a", "b"] : List String), n ∈ rem :=
  (pipelineConfig_cycle_detection [⟨"a", ["b"]⟩, ⟨"b", ["a"]⟩]).1
    (by decide) (by decide) ["a", "b"] (by decide)

/-- C5 (confirmed, spec-modelled): a job list with unique names in which
some `depends_on` entry is not a declared job name fails the cross-record
pass with a `DanglingReferenceViolation` (a constructor distinct from
`CycleViolation`) reporting an undeclared name. -/
theorem pipelineConfig_dangling_detection (jobs : List PipelineSpec.Job)
    (hnd : (PipelineSpec.declaredNames jobs).Nodup)
    (h : ∃ j ∈ jobs, ∃ d ∈ j.depends_on,
      d ∉ PipelineSpec.declaredNames jobs) :
    ∃ jn dn, PipelineSpec.checkPipelineDeps jobs =
        .error (.danglingReferenceViolation jn dn) ∧
      dn ∉ PipelineSpec.declaredNames jobs := by
  cases hf : PipelineSpec.findDangling (PipelineSpec.declaredNames jobs)
      jobs with
  | none =>
    obtain ⟨j, hj, d, hd, hnotmem⟩ := h
    exact absurd (PipelineSpec.findDangling_none_iff.mp hf j hj d hd) hnotmem
  | some p =>
    obtain ⟨jn, dn⟩ := p
    refine ⟨jn, dn, ?_, PipelineSpec.findDangling_some_spec hf⟩
    apply PipelineSpec.checkPipelineDeps_error_dangling
      (PipelineSpec.checkUniqueNames_ok_iff.mpr hnd)
    unfold PipelineSpec.checkDanglingRefs
    rw [hf]

/-- C5 witness: a single job depending on the undeclared name ghost is
rejected with a `DanglingReferenceViolation`. -/
theorem pipelineConfig_dangling_detection_witness :
    ∃ jn dn, PipelineSpec.checkPipelineDeps [⟨"a", ["ghost"]⟩] =
        .error (.danglingReferenceViolation jn dn) ∧
      dn ∉ PipelineSpec.declaredNames [⟨"a", ["ghost"]⟩] :=
  pipelineConfig_dangling_detection [⟨"a", ["ghost"]⟩] (by decide)
    ⟨⟨"a", ["ghost"]⟩, by decide, "ghost", by decide, by decide⟩

/-- Sanity: the spec example pipeline a; b after a; c after a and b is
accepted by the cross-record pass, so the modelled validator is not
vacuously rejecting. -/
theorem pipeline_chain_accepted :
    PipelineSpec.checkPipelineDeps
      [⟨"a", []⟩, ⟨"b", ["a"]⟩, ⟨"c", ["a", "b"]⟩] = .ok () := by
  decide

end PythonMastery
